import Mathlib

/-!
Shallow embedding of the binary.js multiplexing core (src/dist/binary.js):
the per-stream state machine `BinaryStream`, the chunked producer
`BlobReadStream`, and the multiplexer `BinaryClient` with its message
dispatch.  Pure data is modelled directly; the socket is modelled by the
outbound `Msg` values an operation sends and by a boolean input `sendOk`
standing for `socket.send(...) !== false`.  Event emission is modelled as a
list of emitted events, each paired with the stream state visible to
listeners at the moment of emission (JavaScript listeners run synchronously
inside `emit`).
-/

namespace BinaryJS

/-- Payload slot of a wire message: `null`, a raw byte chunk, or opaque
application metadata (binary.js lines 898-927: `[type, payload, bonus]`). -/
inductive Payload where
  | null
  | bytes (b : List Nat)
  | meta (n : Nat)
deriving DecidableEq, Repr

/-- A packed wire message `[code, data, bonus]` as produced by
`BinaryStream.prototype._write` (line 810-813). -/
structure Msg where
  code : Nat
  payload : Payload
  bonus : Nat
deriving DecidableEq, Repr

/-- Mutable state of a `BinaryStream` (lines 753-783): its identifier and the
`writable`, `readable`, `paused` flags. -/
structure BinaryStream where
  id : Nat
  writable : Bool
  readable : Bool
  paused : Bool
deriving DecidableEq, Repr

/-- Events a `BinaryStream` emits. -/
inductive Ev where
  | data (d : Payload)
  | pause
  | resume
  | drain
  | endEv
  | close
deriving DecidableEq, Repr

/-- A fresh stream as built by the `BinaryStream` constructor
(lines 775-777): `writable = readable = true`, `paused = false`. -/
def freshStream (i : Nat) : BinaryStream :=
  { id := i, writable := true, readable := true, paused := false }

/-- `BinaryStream.prototype._write` (lines 810-813): packs `[code, data,
bonus]` and sends it; `sendOk` is the value of `socket.send(...) !== false`. -/
def BinaryStream._write (_s : BinaryStream) (code : Nat) (d : Payload)
    (bonus : Nat) (sendOk : Bool) : Msg × Bool :=
  (⟨code, d, bonus⟩, sendOk)

/-- `BinaryStream.prototype.write` (lines 815-822): throws
`Stream is not writable` when `writable` is false, otherwise sends a Data
(code 2) message and returns `!this.paused && out`. -/
def BinaryStream.write (s : BinaryStream) (d : Payload) (sendOk : Bool) :
    Except String (Msg × Bool) :=
  if s.writable then
    let r := s._write 2 d s.id sendOk
    Except.ok (r.1, !s.paused && r.2)
  else
    Except.error "Stream is not writable"

/-- `BinaryStream.prototype.end` (lines 824-827): the code sets
`this.readable = false` (not `writable`) and sends an End (code 5) message. -/
def BinaryStream.«end» (s : BinaryStream) : BinaryStream × Msg :=
  ({ s with readable := false }, (s._write 5 Payload.null s.id true).1)

/-- `BinaryStream.prototype.destroy` (lines 829-833): clears both flags and
sends a Close (code 6) message.  It emits no local event. -/
def BinaryStream.destroy (s : BinaryStream) : BinaryStream × Msg :=
  ({ s with readable := false, writable := false },
   (s._write 6 Payload.null s.id true).1)

/-- `BinaryStream.prototype._onClose` (lines 788-793): clears both flags,
then emits `close` (listeners see the cleared flags). -/
def BinaryStream._onClose (s : BinaryStream) :
    BinaryStream × List (Ev × BinaryStream) :=
  let s' := { s with readable := false, writable := false }
  (s', [(Ev.close, s')])

/-- `BinaryStream.prototype._onPause` (lines 797-801): emits `pause`
first (listeners see the old state), then sets `paused := true`. -/
def BinaryStream._onPause (s : BinaryStream) :
    BinaryStream × List (Ev × BinaryStream) :=
  ({ s with paused := true }, [(Ev.pause, s)])

/-- `BinaryStream.prototype._onResume` (lines 803-808): emits `resume`, then
`drain`, and only afterwards sets `paused := false`; both listeners observe
the state with `paused` still at its old value. -/
def BinaryStream._onResume (s : BinaryStream) :
    BinaryStream × List (Ev × BinaryStream) :=
  ({ s with paused := false }, [(Ev.resume, s), (Ev.drain, s)])

/-- `BinaryStream.prototype._onEnd` (lines 838-841): sets
`readable := false`, then emits `end`. -/
def BinaryStream._onEnd (s : BinaryStream) :
    BinaryStream × List (Ev × BinaryStream) :=
  let s' := { s with readable := false }
  (s', [(Ev.endEv, s')])

/-- `BinaryStream.prototype._onData` (lines 843-848): emits `data` when
`readable` is true, otherwise silently drops the payload. -/
def BinaryStream._onData (s : BinaryStream) (d : Payload) :
    BinaryStream × List (Ev × BinaryStream) :=
  if s.readable then (s, [(Ev.data d, s)]) else (s, [])

/-- `BinaryStream.prototype.pause` (lines 850-853): runs `_onPause` and
sends a Pause (code 3) message. -/
def BinaryStream.pause (s : BinaryStream) :
    BinaryStream × List (Ev × BinaryStream) × Msg :=
  let r := s._onPause
  (r.1, r.2, (s._write 3 Payload.null s.id true).1)

/-- `BinaryStream.prototype.resume` (lines 855-858): runs `_onResume` and
sends a Resume (code 4) message. -/
def BinaryStream.resume (s : BinaryStream) :
    BinaryStream × List (Ev × BinaryStream) × Msg :=
  let r := s._onResume
  (r.1, r.2, (s._write 4 Payload.null s.id true).1)

/-- The stream-side effect of the socket `close` listener installed by the
`BinaryStream` constructor (lines 768-772): clear both flags and emit
`close`. -/
def closeFlags (s : BinaryStream) : BinaryStream :=
  { s with readable := false, writable := false }

/-! ## BlobReadStream - the chunked producer (lines 447-521) -/

/-- State of `BlobReadStream` (lines 447-464): the byte source, the cursor
`_start`, the chunk size, and the `readable`/`paused` flags. -/
structure BlobReadStream where
  _source : List Nat
  _start : Nat
  _readChunkSize : Nat
  readable : Bool
  paused : Bool
deriving DecidableEq, Repr

/-- Events a `BlobReadStream` emits. -/
inductive BEv where
  | data (chunk : List Nat)
  | endEv
deriving DecidableEq, Repr

/-- The `BlobReadStream` constructor (lines 447-464): cursor at 0,
`_readChunkSize = options.chunkSize || source.size`, `readable = true`. -/
def BlobReadStream.make (source : List Nat) (chunkSize : Nat)
    (paused : Bool) : BlobReadStream :=
  { _source := source, _start := 0,
    _readChunkSize := if chunkSize = 0 then source.length else chunkSize,
    readable := true, paused := paused }

/-- `BlobReadStream.prototype._emitReadChunk` (lines 500-521): returns
unchanged when paused or not readable; when the remaining size is 0 it
clears `readable` and emits `end`; otherwise it slices
`[_start, _start + chunkSize)`, advances the cursor, reschedules `_read`,
and emits the chunk. -/
def BlobReadStream._emitReadChunk (s : BlobReadStream) :
    BlobReadStream × List BEv :=
  if s.paused || !s.readable then (s, [])
  else
    let chunkSize := min (s._source.length - s._start) s._readChunkSize
    if chunkSize = 0 then
      ({ s with readable := false }, [BEv.endEv])
    else
      let sourceEnd := s._start + chunkSize
      let chunk := (s._source.drop s._start).take chunkSize
      ({ s with _start := sourceEnd }, [BEv.data chunk])

/-- The scheduler driving `_emitReadChunk` once per tick (`_read`,
lines 483-498, reschedules after every chunk); `fuel` bounds the number of
ticks that are run. -/
def BlobReadStream.drive : Nat → BlobReadStream → List BEv
  | 0, _ => []
  | n + 1, s =>
    let r := s._emitReadChunk
    r.2 ++ BlobReadStream.drive n r.1

/-- Operations an application (or the scheduler) can apply to a
`BlobReadStream`: a scheduled `_emitReadChunk` tick, `pause` (lines
469-471), `resume` (lines 473-476, which also schedules a tick), and
`destroy` (lines 478-481). -/
inductive BOp where
  | emitChunk
  | pauseOp
  | resumeOp
  | destroyOp
deriving DecidableEq, Repr

/-- One `BlobReadStream` operation together with the events it emits. -/
def BlobReadStream.applyOp (s : BlobReadStream) : BOp → BlobReadStream × List BEv
  | BOp.emitChunk => s._emitReadChunk
  | BOp.pauseOp => ({ s with paused := true }, [])
  | BOp.resumeOp => ({ s with paused := false }, [])
  | BOp.destroyOp => ({ s with readable := false }, [])

/-- Run a sequence of `BlobReadStream` operations, collecting all events. -/
def BlobReadStream.runOps (s : BlobReadStream) :
    List BOp → BlobReadStream × List BEv
  | [] => (s, [])
  | op :: rest =>
    let r := s.applyOp op
    let r2 := r.1.runOps rest
    (r2.1, r.2 ++ r2.2)

/-- Splits a list into consecutive chunks of `C` elements (for `0 < C`),
the last chunk possibly shorter.  Reference shape of the chunk sequence the
producer emits. -/
def chunkList (C : Nat) : List Nat → List (List Nat)
  | [] => []
  | x :: xs => (x :: xs.take (C - 1)) :: chunkList C (xs.drop (C - 1))
termination_by l => l.length
decreasing_by
  simp only [List.length_drop, List.length_cons]
  omega

/-- The payloads of the `data` events of a `BlobReadStream` run, in order. -/
def dataPayloads : List BEv → List (List Nat)
  | [] => []
  | BEv.data c :: r => c :: dataPayloads r
  | BEv.endEv :: r => dataPayloads r

/-! ## BinaryClient - the multiplexer (lines 861-1063) -/

/-- Lookup `this._streams[streamId]` in the registry, modelled as an
association list keyed by stream identifier. -/
def lookupStream : List (Nat × BinaryStream) → Nat → Option BinaryStream
  | [], _ => none
  | p :: r, i => if p.1 = i then some p.2 else lookupStream r i

/-- `delete this._streams[streamId]` (line 986). -/
def removeStream : List (Nat × BinaryStream) → Nat → List (Nat × BinaryStream)
  | [], _ => []
  | p :: r, i =>
    if p.1 = i then removeStream r i else p :: removeStream r i

/-- `this._streams[streamId] = binaryStream` (lines 1049, 1057): bind the
identifier, replacing any previous binding. -/
def setStream (r : List (Nat × BinaryStream)) (i : Nat) (s : BinaryStream) :
    List (Nat × BinaryStream) :=
  (i, s) :: removeStream r i

/-- Mutation of the stream object already registered under `i` (the
dispatch cases 2-5 and `_onClose` mutate the registered object in place). -/
def updateStream : List (Nat × BinaryStream) → Nat → BinaryStream →
    List (Nat × BinaryStream)
  | [], _, _ => []
  | p :: r, i, s =>
    if p.1 = i then (p.1, s) :: updateStream r i s
    else p :: updateStream r i s

/-- State of a `BinaryClient` (lines 861-876): the stream registry and the
next locally allocated identifier (incremented by 2). -/
structure BinaryClient where
  streams : List (Nat × BinaryStream)
  nextId : Nat
deriving DecidableEq, Repr

/-- Events a `BinaryClient` emits: its own `open`/`close` notifications,
the `stream` notification for an inbound StreamOpen, `error` strings, and
the events of a registered stream (tagged with its identifier and the
stream state listeners observe). -/
inductive CEv where
  | openEv
  | closeEv
  | streamEv (id : Nat) (meta : Payload)
  | errorEv (msg : String)
  | sEv (id : Nat) (e : Ev) (snap : BinaryStream)
deriving DecidableEq, Repr

/-- `BinaryClient.prototype._receiveStream` (lines 1047-1051): build a fresh
stream for the given identifier (no StreamOpen is sent back) and bind it in
the registry. -/
def BinaryClient._receiveStream (c : BinaryClient) (i : Nat) :
    BinaryClient × BinaryStream :=
  let s := freshStream i
  ({ c with streams := setStream c.streams i s }, s)

/-- `BinaryClient.prototype.createStream` (lines 1053-1059): allocate the
next local identifier (post-increment by 2), register a fresh stream, and
send the StreamOpen (code 1) message the `BinaryStream` constructor emits
when `create` is true (line 781). -/
def BinaryClient.createStream (c : BinaryClient) (meta : Payload) :
    BinaryClient × BinaryStream × Msg :=
  let i := c.nextId
  let s := freshStream i
  ({ streams := setStream c.streams i s, nextId := c.nextId + 2 }, s,
   ⟨1, meta, i⟩)

/-- The inbound message dispatch of the `BinaryClient` socket `message`
listener (lines 895-996): decode `[code, payload, bonus]` and switch on the
code, forwarding to the registered stream or emitting an `error`. -/
def BinaryClient.onMessage (c : BinaryClient) (m : Msg) :
    BinaryClient × List CEv :=
  match m.code with
  | 0 => (c, [])
  | 1 =>
    let r := c._receiveStream m.bonus
    (r.1, [CEv.streamEv m.bonus m.payload])
  | 2 =>
    match lookupStream c.streams m.bonus with
    | some s =>
      let r := s._onData m.payload
      ({ c with streams := updateStream c.streams m.bonus r.1 },
       r.2.map (fun p => CEv.sEv m.bonus p.1 p.2))
    | none =>
      (c, [CEv.errorEv
        ("Received `data` message for unknown stream: " ++ toString m.bonus)])
  | 3 =>
    match lookupStream c.streams m.bonus with
    | some s =>
      let r := s._onPause
      ({ c with streams := updateStream c.streams m.bonus r.1 },
       r.2.map (fun p => CEv.sEv m.bonus p.1 p.2))
    | none =>
      (c, [CEv.errorEv
        ("Received `pause` message for unknown stream: " ++ toString m.bonus)])
  | 4 =>
    match lookupStream c.streams m.bonus with
    | some s =>
      let r := s._onResume
      ({ c with streams := updateStream c.streams m.bonus r.1 },
       r.2.map (fun p => CEv.sEv m.bonus p.1 p.2))
    | none =>
      (c, [CEv.errorEv
        ("Received `resume` message for unknown stream: " ++ toString m.bonus)])
  | 5 =>
    match lookupStream c.streams m.bonus with
    | some s =>
      let r := s._onEnd
      ({ c with streams := updateStream c.streams m.bonus r.1 },
       r.2.map (fun p => CEv.sEv m.bonus p.1 p.2))
    | none =>
      (c, [CEv.errorEv
        ("Received `end` message for unknown stream: " ++ toString m.bonus)])
  | 6 =>
    match lookupStream c.streams m.bonus with
    | some s =>
      let r := s._onClose
      ({ c with streams := removeStream c.streams m.bonus },
       r.2.map (fun p => CEv.sEv m.bonus p.1 p.2))
    | none =>
      (c, [CEv.errorEv
        ("Received `close` message for unknown stream: " ++ toString m.bonus)])
  | k + 7 =>
    (c, [CEv.errorEv ("Unrecognized message type received: " ++ toString (k + 7))])

/-- An application calling `destroy()` on the stream registered under `i`
(the registry aliases the very object the application holds, lines
829-833): clear its flags in place and send the Close message. -/
def BinaryClient.destroyStream (c : BinaryClient) (i : Nat) :
    BinaryClient × List Msg :=
  match lookupStream c.streams i with
  | some s =>
    let r := s.destroy
    ({ c with streams := updateStream c.streams i r.1 }, [r.2])
  | none => (c, [])

/-- The effect of the transport `close` event (lines 892-894 for the client
listener, lines 768-772 for the listener each registered stream installed):
the client emits `close`, and every registered stream clears both flags and
emits `close`.  Nothing removes registry entries. -/
def BinaryClient.onSocketClose (c : BinaryClient) : BinaryClient × List CEv :=
  ({ c with streams := c.streams.map (fun p => (p.1, closeFlags p.2)) },
   CEv.closeEv :: c.streams.map (fun p => CEv.sEv p.1 Ev.close (closeFlags p.2)))

/-- The operations that can touch a `BinaryClient` and its registry:
local stream creation, the per-stream application calls on a registered
stream, receipt of a transport message, and transport closure. -/
inductive COp where
  | create (meta : Payload)
  | destroyS (i : Nat)
  | endS (i : Nat)
  | pauseS (i : Nat)
  | resumeS (i : Nat)
  | writeS (i : Nat) (d : Payload) (sendOk : Bool)
  | recv (m : Msg)
  | socketClose
deriving DecidableEq, Repr

/-- One client-level operation: the new client state, the events emitted,
and the messages sent on the transport. -/
def BinaryClient.applyOp (c : BinaryClient) :
    COp → BinaryClient × List CEv × List Msg
  | COp.create meta =>
    let r := c.createStream meta
    (r.1, [], [r.2.2])
  | COp.destroyS i =>
    let r := c.destroyStream i
    (r.1, [], r.2)
  | COp.endS i =>
    match lookupStream c.streams i with
    | some s =>
      let r := s.«end»
      ({ c with streams := updateStream c.streams i r.1 }, [], [r.2])
    | none => (c, [], [])
  | COp.pauseS i =>
    match lookupStream c.streams i with
    | some s =>
      let r := s.pause
      ({ c with streams := updateStream c.streams i r.1 },
       r.2.1.map (fun p => CEv.sEv i p.1 p.2), [r.2.2])
    | none => (c, [], [])
  | COp.resumeS i =>
    match lookupStream c.streams i with
    | some s =>
      let r := s.resume
      ({ c with streams := updateStream c.streams i r.1 },
       r.2.1.map (fun p => CEv.sEv i p.1 p.2), [r.2.2])
    | none => (c, [], [])
  | COp.writeS i d sendOk =>
    match lookupStream c.streams i with
    | some s =>
      match s.write d sendOk with
      | Except.ok r => (c, [], [r.1])
      | Except.error _ => (c, [], [])
    | none => (c, [], [])
  | COp.recv m =>
    let r := c.onMessage m
    (r.1, r.2, [])
  | COp.socketClose =>
    let r := c.onSocketClose
    (r.1, r.2, [])

/-! ## Registry lemmas -/

theorem lookup_remove_self (r : List (Nat × BinaryStream)) (i : Nat) :
    lookupStream (removeStream r i) i = none := by
  induction r with
  | nil => rfl
  | cons p rest ih =>
    by_cases h : p.1 = i
    · simpa [removeStream, h] using ih
    · simpa [removeStream, lookupStream, h] using ih

theorem lookup_remove_ne (r : List (Nat × BinaryStream)) (i j : Nat)
    (h : j ≠ i) : lookupStream (removeStream r i) j = lookupStream r j := by
  induction r with
  | nil => rfl
  | cons p rest ih =>
    have hij : ¬ i = j := fun hh => h hh.symm
    by_cases hp : p.1 = i
    · have hpj : p.1 ≠ j := fun hq => h (by rw [← hq, hp])
      simp [removeStream, lookupStream, hp, hpj, hij, ih]
    · by_cases hj : p.1 = j
      · simp [removeStream, lookupStream, hp, hj, h, ih]
      · simp [removeStream, lookupStream, hp, hj, h, ih]

theorem lookup_set_self (r : List (Nat × BinaryStream)) (i : Nat)
    (s : BinaryStream) : lookupStream (setStream r i s) i = some s := by
  simp [setStream, lookupStream]

theorem lookup_set_ne (r : List (Nat × BinaryStream)) (i j : Nat)
    (s : BinaryStream) (h : j ≠ i) :
    lookupStream (setStream r i s) j = lookupStream r j := by
  have hij : i ≠ j := fun hh => h hh.symm
  simp [setStream, lookupStream, hij, lookup_remove_ne r i j h]

theorem lookup_update_isSome (r : List (Nat × BinaryStream)) (i j : Nat)
    (s : BinaryStream) :
    (lookupStream (updateStream r i s) j).isSome =
      (lookupStream r j).isSome := by
  induction r with
  | nil => rfl
  | cons p rest ih =>
    by_cases hp : p.1 = i
    · by_cases hj : p.1 = j
      · have hij : i = j := by rw [← hp, hj]
        simp [updateStream, lookupStream, hp, hj, hij]
      · have hij : ¬ i = j := fun hh => hj (by rw [hp, hh])
        simp [updateStream, lookupStream, hp, hj, hij, ih]
    · by_cases hj : p.1 = j
      · have hji : ¬ j = i := fun hh => hp (by rw [hj, hh])
        simp [updateStream, lookupStream, hp, hj, hji]
      · simp [updateStream, lookupStream, hp, hj, ih]

theorem lookup_update_self (r : List (Nat × BinaryStream)) (i : Nat)
    (s s₀ : BinaryStream) (h : lookupStream r i = some s₀) :
    lookupStream (updateStream r i s) i = some s := by
  induction r with
  | nil => simp [lookupStream] at h
  | cons p rest ih =>
    by_cases hp : p.1 = i
    · simp [updateStream, lookupStream, hp]
    · simp only [lookupStream, hp, if_false, if_neg hp] at h
      simp [updateStream, lookupStream, hp, ih h]

theorem lookup_map_closeFlags (r : List (Nat × BinaryStream)) (i : Nat) :
    lookupStream (r.map (fun p => (p.1, closeFlags p.2))) i =
      (lookupStream r i).map closeFlags := by
  induction r with
  | nil => rfl
  | cons p rest ih =>
    by_cases hj : p.1 = i
    · simp [lookupStream, hj]
    · simp [lookupStream, hj, ih]

theorem mem_of_lookup (r : List (Nat × BinaryStream)) (i : Nat)
    (s : BinaryStream) (h : lookupStream r i = some s) : (i, s) ∈ r := by
  induction r with
  | nil => simp [lookupStream] at h
  | cons p rest ih =>
    obtain ⟨a, b⟩ := p
    by_cases hj : a = i
    · subst hj
      simp [lookupStream] at h
      subst h
      exact List.mem_cons_self _ _
    · simp only [lookupStream, if_neg hj] at h
      exact List.mem_cons_of_mem _ (ih h)

/-! ## Chunked-producer lemmas -/

theorem chunkList_nil (C : Nat) : chunkList C [] = [] := by
  simp [chunkList]

theorem chunkList_cons (C : Nat) (x : Nat) (xs : List Nat) :
    chunkList C (x :: xs) =
      (x :: xs.take (C - 1)) :: chunkList C (xs.drop (C - 1)) := by
  simp [chunkList]

theorem chunkList_cons_eq (C : Nat) (hC : 0 < C) (x : Nat) (xs : List Nat) :
    chunkList C (x :: xs) =
      (x :: xs).take C :: chunkList C ((x :: xs).drop C) := by
  obtain ⟨D, rfl⟩ : ∃ D, C = D + 1 := ⟨C - 1, by omega⟩
  rw [chunkList_cons]
  simp

theorem chunkList_flatten (C : Nat) :
    ∀ l : List Nat, (chunkList C l).flatten = l
  | [] => by simp [chunkList_nil]
  | x :: xs => by
    rw [chunkList_cons]
    simp only [List.flatten_cons]
    rw [chunkList_flatten C (xs.drop (C - 1))]
    simp [List.take_append_drop]
termination_by l => l.length
decreasing_by
  simp only [List.length_drop, List.length_cons]
  omega

theorem chunkList_length (C : Nat) (hC : 0 < C) :
    ∀ l : List Nat, (chunkList C l).length = (l.length + C - 1) / C
  | [] => by
    rw [chunkList_nil]
    simp [Nat.div_eq_of_lt (show C - 1 < C by omega)]
  | x :: xs => by
    rw [chunkList_cons]
    simp only [List.length_cons]
    rw [chunkList_length C hC (xs.drop (C - 1))]
    simp only [List.length_drop]
    rcases le_or_lt (C - 1) xs.length with h | h
    · have h1 : xs.length - (C - 1) + C - 1 = xs.length := by omega
      have h2 : xs.length + 1 + C - 1 = xs.length + C := by omega
      rw [h1, h2, Nat.add_div_right _ hC]
    · have h1 : xs.length - (C - 1) + C - 1 = C - 1 := by omega
      have h2 : xs.length + 1 + C - 1 = xs.length + C := by omega
      rw [h1, h2, Nat.add_div_right _ hC]
      rw [Nat.div_eq_of_lt (show C - 1 < C by omega),
        Nat.div_eq_of_lt (show xs.length < C by omega)]
termination_by l => l.length
decreasing_by
  simp only [List.length_drop, List.length_cons]
  omega

theorem chunkList_mem_length (C : Nat) (hC : 0 < C) :
    ∀ l : List Nat, ∀ c ∈ chunkList C l, c.length ≤ C
  | [] => by simp [chunkList_nil]
  | x :: xs => by
    rw [chunkList_cons]
    intro c hc
    rcases List.mem_cons.mp hc with rfl | hc
    · simp only [List.length_cons, List.length_take]
      omega
    · exact chunkList_mem_length C hC (xs.drop (C - 1)) c hc
termination_by l => l.length
decreasing_by
  simp only [List.length_drop, List.length_cons]
  omega

theorem chunkList_eq_nil_iff (C : Nat) (l : List Nat) :
    chunkList C l = [] ↔ l = [] := by
  cases l with
  | nil => simp [chunkList_nil]
  | cons x xs =>
    rw [chunkList_cons]
    simp

theorem chunkList_dropLast (C : Nat) (hC : 0 < C) :
    ∀ l : List Nat, ∀ c ∈ (chunkList C l).dropLast, c.length = C
  | [] => by simp [chunkList_nil]
  | x :: xs => by
    rw [chunkList_cons]
    by_cases h : chunkList C (xs.drop (C - 1)) = []
    · rw [h]
      simp
    · intro c hc
      rw [List.dropLast_cons_of_ne_nil h] at hc
      rcases List.mem_cons.mp hc with rfl | hc
      · have hx : xs.drop (C - 1) ≠ [] :=
          fun h0 => h (by rw [h0, chunkList_nil])
        have hlen : C - 1 < xs.length := by
          by_contra hlt
          push_neg at hlt
          exact hx (List.drop_eq_nil_of_le hlt)
        simp only [List.length_cons, List.length_take]
        omega
      · exact chunkList_dropLast C hC (xs.drop (C - 1)) c hc
termination_by l => l.length
decreasing_by
  simp only [List.length_drop, List.length_cons]
  omega

theorem dataPayloads_map_append (cs : List (List Nat)) :
    dataPayloads (cs.map BEv.data ++ [BEv.endEv]) = cs := by
  induction cs with
  | nil => rfl
  | cons c r ih => simp [dataPayloads, ih]

theorem emitReadChunk_of_not_readable (s : BlobReadStream)
    (h : s.readable = false) : s._emitReadChunk = (s, []) := by
  unfold BlobReadStream._emitReadChunk
  rw [h]
  simp

theorem drive_of_not_readable (fuel : Nat) (s : BlobReadStream)
    (h : s.readable = false) : BlobReadStream.drive fuel s = [] := by
  induction fuel with
  | zero => rfl
  | succ n ih =>
    simp [BlobReadStream.drive, emitReadChunk_of_not_readable s h, ih]

theorem chunkList_drop_step (C : Nat) (hC : 0 < C) (src : List Nat)
    (start : Nat) (h : start < src.length) :
    chunkList C (src.drop start) =
      (src.drop start).take (min (src.length - start) C) ::
        chunkList C (src.drop (start + min (src.length - start) C)) := by
  have hl : (src.drop start).length = src.length - start := by simp
  have hne : src.drop start ≠ [] := by
    intro h0
    rw [h0] at hl
    simp only [List.length_nil] at hl
    omega
  obtain ⟨x, xs, hx⟩ := List.exists_cons_of_ne_nil hne
  have hstep := chunkList_cons_eq C hC x xs
  rw [← hx] at hstep
  rw [hstep]
  have hdd : src.drop (start + min (src.length - start) C) =
      (src.drop start).drop (min (src.length - start) C) := by
    rw [List.drop_drop, Nat.add_comm]
  rw [hdd]
  rcases le_or_lt C (src.length - start) with hcle | hclt
  · have hm : min (src.length - start) C = C := by omega
    rw [hm]
  · have hm : min (src.length - start) C = src.length - start := by omega
    rw [hm]
    have h1 : (src.drop start).take C = src.drop start :=
      List.take_of_length_le (by simp; omega)
    have h2 : (src.drop start).take (src.length - start) = src.drop start :=
      List.take_of_length_le (by simp)
    have h3 : (src.drop start).drop C = [] :=
      List.drop_eq_nil_of_le (by simp; omega)
    have h4 : (src.drop start).drop (src.length - start) = [] :=
      List.drop_eq_nil_of_le (by simp)
    rw [h1, h2, h3, h4]

theorem drive_eq_chunkList (C : Nat) (hC : 0 < C) :
    ∀ fuel src start, start ≤ src.length → src.length - start < fuel →
      BlobReadStream.drive fuel ⟨src, start, C, true, false⟩ =
        (chunkList C (src.drop start)).map BEv.data ++ [BEv.endEv] := by
  intro fuel
  induction fuel with
  | zero =>
    intro src start h1 h2
    omega
  | succ n ih =>
    intro src start h1 h2
    by_cases hend : src.length - start = 0
    · have he : BlobReadStream._emitReadChunk ⟨src, start, C, true, false⟩ =
          (⟨src, start, C, false, false⟩, [BEv.endEv]) := by
        unfold BlobReadStream._emitReadChunk
        simp [hend]
      have hdrop : src.drop start = [] := List.drop_eq_nil_of_le (by omega)
      have hnr := drive_of_not_readable n ⟨src, start, C, false, false⟩ rfl
      simp [BlobReadStream.drive, he, hnr, hdrop, chunkList_nil]
    · have hlt : start < src.length := by omega
      have hm0 : min (src.length - start) C ≠ 0 := by omega
      have he : BlobReadStream._emitReadChunk ⟨src, start, C, true, false⟩ =
          (⟨src, start + min (src.length - start) C, C, true, false⟩,
           [BEv.data ((src.drop start).take (min (src.length - start) C))]) := by
        unfold BlobReadStream._emitReadChunk
        simp [hm0]
      have hih := ih src (start + min (src.length - start) C)
        (by omega) (by omega)
      simp only [BlobReadStream.drive, he]
      rw [hih, chunkList_drop_step C hC src start hlt]
      simp

theorem runOps_of_not_readable (s : BlobReadStream) (ops : List BOp)
    (h : s.readable = false) :
    (s.runOps ops).2 = [] ∧ (s.runOps ops).1.readable = false := by
  induction ops generalizing s with
  | nil => exact ⟨rfl, h⟩
  | cons op rest ih =>
    have key : (s.applyOp op).2 = [] ∧ (s.applyOp op).1.readable = false := by
      cases op with
      | emitChunk =>
        have he := emitReadChunk_of_not_readable s h
        constructor
        · show s._emitReadChunk.2 = []
          rw [he]
        · show s._emitReadChunk.1.readable = false
          rw [he]
          exact h
      | pauseOp => exact ⟨rfl, h⟩
      | resumeOp => exact ⟨rfl, h⟩
      | destroyOp => exact ⟨rfl, rfl⟩
    have ih' := ih (s.applyOp op).1 key.2
    constructor
    · show (s.applyOp op).2 ++ ((s.applyOp op).1.runOps rest).2 = []
      rw [key.1, ih'.1]
      rfl
    · show ((s.applyOp op).1.runOps rest).1.readable = false
      exact ih'.2

theorem onMessage_preserves (c : BinaryClient) (m : Msg) (i : Nat)
    (hne : ¬ (m.code = 6 ∧ m.bonus = i))
    (h : (lookupStream c.streams i).isSome = true) :
    (lookupStream (c.onMessage m).1.streams i).isSome = true := by
  rcases m with ⟨code, payload, bonus⟩
  simp only at hne
  unfold BinaryClient.onMessage
  rcases code with _ | _ | _ | _ | _ | _ | _ | k
  · exact h
  · by_cases hbi : i = bonus
    · subst hbi
      show (lookupStream (setStream c.streams i (freshStream i)) i).isSome = true
      rw [lookup_set_self]
      rfl
    · show (lookupStream (setStream c.streams bonus (freshStream bonus)) i).isSome = true
      rw [lookup_set_ne _ _ _ _ hbi]
      exact h
  · cases hb : lookupStream c.streams bonus with
    | none => exact h
    | some s => simpa [lookup_update_isSome] using h
  · cases hb : lookupStream c.streams bonus with
    | none => exact h
    | some s => simpa [lookup_update_isSome] using h
  · cases hb : lookupStream c.streams bonus with
    | none => exact h
    | some s => simpa [lookup_update_isSome] using h
  · cases hb : lookupStream c.streams bonus with
    | none => exact h
    | some s => simpa [lookup_update_isSome] using h
  · have hbi : ¬ i = bonus := by
      intro hq
      exact hne ⟨rfl, hq.symm⟩
    cases hb : lookupStream c.streams bonus with
    | none => exact h
    | some s =>
      show (lookupStream (removeStream c.streams bonus) i).isSome = true
      rw [lookup_remove_ne _ _ _ hbi]
      exact h
  · exact h

/-! ## The claims -/

/-- C1: the claim says `end()` relinquishes only the local write half and
leaves `readable` untouched.  The code (lines 824-827) does send the End
message, but it sets `readable := false` and leaves `writable` untouched,
so the write half is not relinquished: evaluated on a fresh open stream. -/
theorem C1_end_sets_readable :
    (freshStream 0).«end» =
      (BinaryStream.mk 0 true false false, Msg.mk 5 Payload.null 0) := by
  rfl

/-- C2: the claim says that after `end()` a `write()` fails with an
invalid-operation error while inbound Data still notifies when `readable`
is true.  On the code, after `end()` the stream is still writable, so
`write` succeeds and sends a Data message, and `readable` has been cleared,
so an inbound Data message is silently dropped. -/
theorem C2_write_after_end :
    ((freshStream 0).«end»).1.write (Payload.bytes [7]) true =
      Except.ok (Msg.mk 2 (Payload.bytes [7]) 0, true) ∧
    ((freshStream 0).«end»).1.readable = false ∧
    ((freshStream 0).«end»).1._onData (Payload.bytes [7]) =
      (((freshStream 0).«end»).1, []) := by
  refine ⟨rfl, rfl, rfl⟩

/-- C3: `write(data)` fails with the `Stream is not writable` error exactly
when `writable` is false; otherwise it sends a Data message with this
stream's identifier and returns false iff the transport signalled
backpressure (`sendOk = false`) or the stream is paused by the remote
peer. -/
theorem C3_write_spec (s : BinaryStream) (d : Payload) (sendOk : Bool) :
    (s.writable = false →
      s.write d sendOk = Except.error "Stream is not writable") ∧
    (s.writable = true →
      s.write d sendOk = Except.ok (Msg.mk 2 d s.id, !s.paused && sendOk) ∧
      ((!s.paused && sendOk) = false ↔ (sendOk = false ∨ s.paused = true))) := by
  constructor
  · intro h
    simp [BinaryStream.write, h]
  · intro h
    constructor
    · simp [BinaryStream.write, BinaryStream._write, h]
    · cases hp : s.paused <;> cases hs : sendOk <;> simp

theorem C3_write_spec_w :
    BinaryStream.write (BinaryStream.mk 0 false true false) Payload.null true =
      Except.error "Stream is not writable" := by
  have h := C3_write_spec (BinaryStream.mk 0 false true false) Payload.null true
  exact h.1 rfl

/-- C4 counterexample: creating a stream and then calling `destroy()` on it
leaves its identifier registered (the code never deletes the entry on local
destroy), refuting the claim that after `destroy()` the identifier is no
longer present in the registry. -/
theorem C4_destroy_keeps_entry :
    lookupStream
      ((((BinaryClient.mk [] 0).createStream Payload.null).1).destroyStream
        0).1.streams 0 ≠ none := by
  decide

/-- C4 (amended): registry entries are added at stream creation and removed
only by the registered receipt of a Close message; `destroy()` sends the
Close message but leaves the entry in the registry, and no other operation
removes an entry. -/
theorem C4_registry (c : BinaryClient) (op : COp) (i : Nat) (meta : Payload) :
    ((lookupStream c.streams i).isSome = true →
      (lookupStream (c.applyOp op).1.streams i).isSome = true ∨
        (∃ m, op = COp.recv m ∧ m.code = 6 ∧ m.bonus = i)) ∧
    (∀ s, lookupStream c.streams i = some s →
      (lookupStream (c.applyOp (COp.destroyS i)).1.streams i).isSome = true ∧
      (c.applyOp (COp.destroyS i)).2.2 = [Msg.mk 6 Payload.null s.id]) ∧
    (lookupStream (c.applyOp (COp.create meta)).1.streams c.nextId).isSome
      = true := by
  refine ⟨?_, ?_, ?_⟩
  · intro h
    cases op with
    | create m =>
      left
      show (lookupStream (setStream c.streams c.nextId
        (freshStream c.nextId)) i).isSome = true
      by_cases hni : i = c.nextId
      · subst hni
        rw [lookup_set_self]
        rfl
      · rw [lookup_set_ne _ _ _ _ hni]
        exact h
    | destroyS j =>
      left
      show (lookupStream (c.destroyStream j).1.streams i).isSome = true
      unfold BinaryClient.destroyStream
      cases hj : lookupStream c.streams j with
      | none => exact h
      | some s => simpa [lookup_update_isSome] using h
    | endS j =>
      left
      simp only [BinaryClient.applyOp]
      cases hj : lookupStream c.streams j with
      | none => exact h
      | some s => simpa [lookup_update_isSome] using h
    | pauseS j =>
      left
      simp only [BinaryClient.applyOp]
      cases hj : lookupStream c.streams j with
      | none => exact h
      | some s => simpa [lookup_update_isSome] using h
    | resumeS j =>
      left
      simp only [BinaryClient.applyOp]
      cases hj : lookupStream c.streams j with
      | none => exact h
      | some s => simpa [lookup_update_isSome] using h
    | writeS j d sendOk =>
      left
      simp only [BinaryClient.applyOp]
      split
      · split
        · exact h
        · exact h
      · exact h
    | recv m =>
      by_cases h6 : m.code = 6 ∧ m.bonus = i
      · exact Or.inr ⟨m, rfl, h6.1, h6.2⟩
      · exact Or.inl (onMessage_preserves c m i h6 h)
    | socketClose =>
      left
      show (lookupStream (c.streams.map (fun p => (p.1, closeFlags p.2)))
        i).isSome = true
      rw [lookup_map_closeFlags]
      obtain ⟨s, hs⟩ := Option.isSome_iff_exists.mp h
      rw [hs]
      rfl
  · intro s hs
    have hd : c.destroyStream i =
        ({ c with streams := updateStream c.streams i (s.destroy).1 },
         [(s.destroy).2]) := by
      unfold BinaryClient.destroyStream
      rw [hs]
    constructor
    · show (lookupStream (c.destroyStream i).1.streams i).isSome = true
      rw [hd]
      show (lookupStream (updateStream c.streams i (s.destroy).1) i).isSome
        = true
      rw [lookup_update_isSome, hs]
      rfl
    · show (c.destroyStream i).2 = [Msg.mk 6 Payload.null s.id]
      rw [hd]
      rfl
  · show (lookupStream (setStream c.streams c.nextId
      (freshStream c.nextId)) c.nextId).isSome = true
    rw [lookup_set_self]
    rfl

theorem C4_registry_w :
    (lookupStream ((BinaryClient.mk [(0, freshStream 0)] 2).applyOp
      (COp.destroyS 0)).1.streams 0).isSome = true := by
  have h := C4_registry (BinaryClient.mk [(0, freshStream 0)] 2)
    (COp.destroyS 0) 0 Payload.null
  exact (h.2.1 (freshStream 0) rfl).1

/-- C5: processing a Close message for a registered identifier clears both
flags (visible in the emitted close notification's snapshot), emits exactly
one close notification, and removes the identifier from the registry; a
duplicate Close for the now-absent identifier only produces an
unknown-stream error notification (no close, no exception), and `destroy()`
emits no close notification at all, so calling it twice raises none. -/
theorem C5_close_idempotent (c : BinaryClient) (i : Nat) (p q : Payload)
    (s : BinaryStream) (h : lookupStream c.streams i = some s) :
    lookupStream (c.onMessage (Msg.mk 6 p i)).1.streams i = none ∧
    (c.onMessage (Msg.mk 6 p i)).2 = [CEv.sEv i Ev.close (closeFlags s)] ∧
    (c.onMessage (Msg.mk 6 p i)).1.onMessage (Msg.mk 6 q i) =
      ((c.onMessage (Msg.mk 6 p i)).1,
       [CEv.errorEv
         ("Received `close` message for unknown stream: " ++ toString i)]) ∧
    (c.applyOp (COp.destroyS i)).2.1 = [] ∧
    ((c.applyOp (COp.destroyS i)).1.applyOp (COp.destroyS i)).2.1 = [] := by
  have hd : c.onMessage (Msg.mk 6 p i) =
      ({ c with streams := removeStream c.streams i },
       [CEv.sEv i Ev.close (closeFlags s)]) := by
    unfold BinaryClient.onMessage
    rw [h]
    exact rfl
  refine ⟨?_, ?_, ?_, rfl, rfl⟩
  · rw [hd]
    exact lookup_remove_self c.streams i
  · rw [hd]
  · rw [hd]
    have hnone : lookupStream
        ({ c with streams := removeStream c.streams i } :
          BinaryClient).streams i = none :=
      lookup_remove_self c.streams i
    unfold BinaryClient.onMessage
    rw [hnone]

theorem C5_close_idempotent_w :
    lookupStream ((BinaryClient.mk [(0, freshStream 0)] 2).onMessage
      (Msg.mk 6 Payload.null 0)).1.streams 0 = none := by
  have h := C5_close_idempotent (BinaryClient.mk [(0, freshStream 0)] 2) 0
    Payload.null Payload.null (freshStream 0) rfl
  exact h.1

/-- C6: for a source of size S and chunk size C greater than 0, driving the
chunked producer to completion emits chunks whose concatenation is exactly
the source, whose count is the ceiling of S divided by C, each of size at
most C, and every chunk but the last of size exactly C. -/
theorem C6_chunking (src : List Nat) (C : Nat) (hC : 0 < C) :
    (dataPayloads (BlobReadStream.drive (src.length + 1)
      (BlobReadStream.make src C false))).flatten = src ∧
    (dataPayloads (BlobReadStream.drive (src.length + 1)
      (BlobReadStream.make src C false))).length = (src.length + C - 1) / C ∧
    (∀ ch ∈ dataPayloads (BlobReadStream.drive (src.length + 1)
      (BlobReadStream.make src C false)), ch.length ≤ C) ∧
    (∀ ch ∈ (dataPayloads (BlobReadStream.drive (src.length + 1)
      (BlobReadStream.make src C false))).dropLast, ch.length = C) := by
  have hmk : BlobReadStream.make src C false = ⟨src, 0, C, true, false⟩ := by
    unfold BlobReadStream.make
    rw [if_neg (by omega)]
  have hdr := drive_eq_chunkList C hC (src.length + 1) src 0 (Nat.zero_le _)
    (by omega)
  rw [hmk, hdr, List.drop_zero, dataPayloads_map_append]
  exact ⟨chunkList_flatten C src, chunkList_length C hC src,
    chunkList_mem_length C hC src, chunkList_dropLast C hC src⟩

theorem C6_chunking_w :
    (dataPayloads (BlobReadStream.drive 6
      (BlobReadStream.make [1, 2, 3, 4, 5] 2 false))).flatten =
        [1, 2, 3, 4, 5] ∧
    (dataPayloads (BlobReadStream.drive 6
      (BlobReadStream.make [1, 2, 3, 4, 5] 2 false))).length = 3 := by
  have h := C6_chunking [1, 2, 3, 4, 5] 2 (by decide)
  exact ⟨h.1, h.2.1⟩

/-- C7: once the cursor has reached the source size, the next scheduled
chunk emission clears the readable flag and fires the end notification, and
afterwards no sequence of operations - including `resume()` followed by
further scheduled emissions - produces any chunk or any further end
notification. -/
theorem C7_end_once (s : BlobReadStream) (ops : List BOp)
    (hcur : s._start = s._source.length) (hr : s.readable = true)
    (hp : s.paused = false) :
    s._emitReadChunk.2 = [BEv.endEv] ∧
    s._emitReadChunk.1.readable = false ∧
    (s._emitReadChunk.1.runOps ops).2 = [] := by
  have he : s._emitReadChunk = ({ s with readable := false }, [BEv.endEv]) := by
    unfold BlobReadStream._emitReadChunk
    rw [hp, hr, hcur]
    simp
  refine ⟨by rw [he], by rw [he], ?_⟩
  rw [he]
  exact (runOps_of_not_readable _ ops rfl).1

theorem C7_end_once_w :
    (BlobReadStream.mk [9] 1 1 true false)._emitReadChunk.2 = [BEv.endEv] ∧
    ((BlobReadStream.mk [9] 1 1 true false)._emitReadChunk.1.runOps
      [BOp.resumeOp, BOp.emitChunk]).2 = [] := by
  have h := C7_end_once (BlobReadStream.mk [9] 1 1 true false)
    [BOp.resumeOp, BOp.emitChunk] rfl rfl rfl
  exact ⟨h.1, h.2.2⟩

/-- C8 counterexample: on a stream paused by the remote peer, `_onResume`
emits resume and drain while the listener-visible state still has
`paused = true`, and a `write()` at that state returns false even though
the transport accepted the send - refuting the claim that the gate is
cleared before drain is emitted and that a drain listener's `write()`
returns true. -/
theorem C8_drain_while_paused :
    (BinaryStream.mk 0 true true true)._onResume.2 =
      [(Ev.resume, BinaryStream.mk 0 true true true),
       (Ev.drain, BinaryStream.mk 0 true true true)] ∧
    (BinaryStream.mk 0 true true true).paused = true ∧
    (BinaryStream.mk 0 true true true).write Payload.null true =
      Except.ok (Msg.mk 2 Payload.null 0, false) := by
  refine ⟨rfl, rfl, rfl⟩

/-- C8 (amended): `_onResume` emits the resume notification and then the
drain notification, both while the stream is still marked paused, and only
afterwards clears the paused gate; a `write()` performed after the handler
completes returns true absent transport backpressure. -/
theorem C8_resume_order (s : BinaryStream) (d : Payload)
    (hw : s.writable = true) :
    s._onResume.2 = [(Ev.resume, s), (Ev.drain, s)] ∧
    s._onResume.1 = { s with paused := false } ∧
    s._onResume.1.write d true = Except.ok (Msg.mk 2 d s.id, true) := by
  refine ⟨rfl, rfl, ?_⟩
  simp [BinaryStream._onResume, BinaryStream.write, BinaryStream._write, hw]

theorem C8_resume_order_w :
    (BinaryStream.mk 0 true true true)._onResume.1.write Payload.null true =
      Except.ok (Msg.mk 2 Payload.null 0, true) := by
  have h := C8_resume_order (BinaryStream.mk 0 true true true) Payload.null rfl
  exact h.2.2

/-- C9 counterexample: after the transport closes, the registry of a client
that had one registered stream is not cleared - the entry is still there -
refuting the claim that the registry contains no entries afterwards. -/
theorem C9_registry_not_cleared :
    ((((BinaryClient.mk [] 0).createStream Payload.null).1).onSocketClose).1.streams
      ≠ [] := by
  decide

/-- C9 (amended): when the transport closes, every registered stream is
marked neither readable nor writable and receives a close notification, but
the registry is not cleared: it keeps exactly its entries (with the
streams' flags lowered). -/
theorem C9_socket_close (c : BinaryClient) (i : Nat) (s : BinaryStream)
    (h : lookupStream c.streams i = some s) :
    lookupStream (c.onSocketClose).1.streams i = some (closeFlags s) ∧
    (closeFlags s).readable = false ∧ (closeFlags s).writable = false ∧
    CEv.sEv i Ev.close (closeFlags s) ∈ (c.onSocketClose).2 ∧
    (c.onSocketClose).1.streams.length = c.streams.length := by
  refine ⟨?_, rfl, rfl, ?_, ?_⟩
  · show lookupStream (c.streams.map (fun p => (p.1, closeFlags p.2))) i =
      some (closeFlags s)
    rw [lookup_map_closeFlags, h]
    rfl
  · show CEv.sEv i Ev.close (closeFlags s) ∈
      CEv.closeEv ::
        c.streams.map (fun p => CEv.sEv p.1 Ev.close (closeFlags p.2))
    exact List.mem_cons_of_mem _
      (List.mem_map.mpr ⟨(i, s), mem_of_lookup _ _ _ h, rfl⟩)
  · show (c.streams.map (fun p => (p.1, closeFlags p.2))).length =
      c.streams.length
    exact List.length_map _ _

theorem C9_socket_close_w :
    lookupStream ((BinaryClient.mk [(0, freshStream 0)] 2).onSocketClose).1.streams
      0 = some (closeFlags (freshStream 0)) := by
  have h := C9_socket_close (BinaryClient.mk [(0, freshStream 0)] 2) 0
    (freshStream 0) rfl
  exact h.1

/-- C10: receiving a StreamOpen message for an identifier already in the
registry emits only the new-stream notification (no error and no event on
the previously registered stream) and silently rebinds the identifier to a
fresh stream with readable and writable both true; the displaced stream is
not touched. -/
theorem C10_reopen (c : BinaryClient) (i : Nat) (old : BinaryStream)
    (meta : Payload) (_h : lookupStream c.streams i = some old) :
    lookupStream (c.onMessage (Msg.mk 1 meta i)).1.streams i =
      some (freshStream i) ∧
    (freshStream i).readable = true ∧ (freshStream i).writable = true ∧
    (c.onMessage (Msg.mk 1 meta i)).2 = [CEv.streamEv i meta] := by
  refine ⟨?_, rfl, rfl, rfl⟩
  show lookupStream (setStream c.streams i (freshStream i)) i =
    some (freshStream i)
  exact lookup_set_self _ _ _

theorem C10_reopen_w :
    lookupStream ((BinaryClient.mk [(0, BinaryStream.mk 0 false false false)] 2).onMessage
      (Msg.mk 1 Payload.null 0)).1.streams 0 = some (freshStream 0) := by
  have h := C10_reopen (BinaryClient.mk [(0, BinaryStream.mk 0 false false false)] 2)
    0 (BinaryStream.mk 0 false false false) Payload.null rfl
  exact h.1

end BinaryJS
